import Mathlib

/-
Shallow embedding of the Kubernetes Stability & Resource Auditor's rule
pipeline: the jq filter of the audit script (rule checks 1-5, namespace
exclusion, row construction) and the shell loop that appends CSV rows.
Workload and Container mirror exactly the fields the jq filter reads;
maps whose contents are never inspected (resources.requests/limits) are
modelled by their presence (jq tests them only against null).
-/

structure Container where
  name : String
  image : String
  privileged : Bool
  hasLivenessProbe : Bool
  hasReadinessProbe : Bool
  resourceRequests : Bool
  resourceLimits : Bool
deriving DecidableEq

structure Workload where
  kind : String
  ns : String
  name : String
  replicas : Option Int
  containers : List Container
deriving DecidableEq

/-- The per-issue record built inside the jq filter:
`{level, issue, detail, rec}`. -/
structure Issue where
  level : String
  issue : String
  detail : String
  recommendation : String
deriving DecidableEq

/-- One output row of the jq filter:
`[$current_time, $ns, $kind, $name, .level, .issue, .rec, .detail]`. -/
structure Finding where
  timestamp : String
  ns : String
  kind : String
  name : String
  level : String
  issue : String
  recommendation : String
  detail : String
deriving DecidableEq

/-- jq `endswith(suffi)` on strings, at the character level. -/
def strEndsWith (s suffi : String) : Bool :=
  suffi.data.isSuffixOf s.data

/-- jq `contains(t)` for a one-character needle `t`, at the character level. -/
def strContainsChar (s : String) (c : Char) : Bool :=
  s.data.contains c

/-- jq `split(",")` at the character level: chunks between commas, so the
empty string splits to `[""]` and a trailing comma yields a final `""`. -/
def splitCommas : List Char → List (List Char)
  | [] => [[]]
  | c :: rest =>
    if c = ',' then [] :: splitCommas rest
    else
      match splitCommas rest with
      | [] => [[c]]
      | f :: r => (c :: f) :: r

/-- jq check 2: `select(.securityContext.privileged == true)`. -/
def privilegedCheck (c : Container) : Option Issue :=
  if c.privileged then
    some ⟨"HIGH", "Privileged Container", "Container: " ++ c.name,
          "Avoid privileged mode"⟩
  else none

/-- jq check 3: `select(.image | (endswith(":latest") or (contains(":") | not)))`. -/
def latestTagCheck (c : Container) : Option Issue :=
  if strEndsWith c.image ":latest" || !strContainsChar c.image ':' then
    some ⟨"WARN", "Using Latest Tag",
          "Container: " ++ c.name ++ " (" ++ c.image ++ ")",
          "Use specific version tag"⟩
  else none

/-- jq check 4a: `select(has("livenessProbe") | not)`. -/
def livenessCheck (c : Container) : Option Issue :=
  if !c.hasLivenessProbe then
    some ⟨"HIGH", "Missing LivenessProbe", "Container: " ++ c.name,
          "Add livenessProbe"⟩
  else none

/-- jq check 4b: `select(has("readinessProbe") | not)`. -/
def readinessCheck (c : Container) : Option Issue :=
  if !c.hasReadinessProbe then
    some ⟨"HIGH", "Missing ReadinessProbe", "Container: " ++ c.name,
          "Add readinessProbe"⟩
  else none

/-- jq check 5: `if requests == null then ... elif limits == null then ... else empty`. -/
def resourceCheck (c : Container) : Option Issue :=
  if !c.resourceRequests then
    some ⟨"CRITICAL", "Missing Requests", "Container: " ++ c.name,
          "Define resources.requests"⟩
  else if !c.resourceLimits then
    some ⟨"CRITICAL", "Missing Limits", "Container: " ++ c.name,
          "Define resources.limits"⟩
  else none

/-- jq check 1: `if $kind == "Deployment" and ($item.spec.replicas // 1) == 1`. -/
def replicaIssues (w : Workload) : List Issue :=
  if w.kind == "Deployment" && w.replicas.getD 1 == 1 then
    [⟨"WARN", "Single Replica", "replicas=1", "Increase replicas > 1 for HA"⟩]
  else []

/-- The parenthesized analysis-array concatenation of the jq filter,
in source order: replicas, privileged, image tag, liveness, readiness,
resources; each per-container check streams `containers[]` in order. -/
def workloadIssues (w : Workload) : List Issue :=
  replicaIssues w
    ++ w.containers.filterMap privilegedCheck
    ++ w.containers.filterMap latestTagCheck
    ++ w.containers.filterMap livenessCheck
    ++ w.containers.filterMap readinessCheck
    ++ w.containers.filterMap resourceCheck

/-- jq helper `is_excluded($ns; $list)` applied after the comma split:
`index($ns) != null` on a string array is list membership. -/
def isExcluded (ns : String) (list : List String) : Bool :=
  list.contains ns

/-- The `$exclude_ns | split(",")` step that turns the `EXCLUDE_NS`
environment string into the exclusion array. -/
def splitExclusions (s : String) : List String :=
  (splitCommas s.data).map String.mk

/-- Row construction: `[$current_time, $ns, $kind, $name, .level, .issue, .rec, .detail]`. -/
def stamp (clock : String) (w : Workload) (i : Issue) : Finding :=
  ⟨clock, w.ns, w.kind, w.name, i.level, i.issue, i.recommendation, i.detail⟩

/-- The whole jq pipeline over `.items[]`: drop excluded namespaces with
`select`, analyse each remaining workload, emit one row per issue. The
injected `clock` models the single `--arg current_time "$(date -u ...)"`. -/
def audit (clock : String) (excl : List String) (items : List Workload) :
    List Finding :=
  items.flatMap fun w =>
    if isExcluded w.ns excl then []
    else (workloadIssues w).map (stamp clock w)

/-- The header the script echoes into the CSV file before the loop. -/
def csvHeader : String :=
  "Timestamp,Namespace,Type,Name,Issue_Level,Issue_Type,Recommendation"

/-- The loop body `echo "$TIMESTAMP,$NS,$KIND,$NAME,$LEVEL,$ISSUE - $DETAIL,$REC"`:
fields joined by plain commas, no quoting. -/
def csvRow (f : Finding) : String :=
  f.timestamp ++ "," ++ f.ns ++ "," ++ f.kind ++ "," ++ f.name ++ ","
    ++ f.level ++ "," ++ f.issue ++ " - " ++ f.detail ++ "," ++ f.recommendation

/-- The CSV file contents as a list of lines: header first, then one row
per finding in order. -/
def csvLines (fs : List Finding) : List String :=
  csvHeader :: fs.map csvRow

/-- The namespace-filter step in isolation: the `select(is_excluded | not)`
stage of the pipeline, factored out of `audit`. -/
def nsFilter (excl : List String) (items : List Workload) : List Workload :=
  items.filter fun w => !isExcluded w.ns excl

/-- One per-container rule lifted to a workload: stream `containers[]` in
order and keep the produced issue, if any. -/
def perContainer (check : Container → Option Issue) (w : Workload) : List Issue :=
  w.containers.flatMap fun c => (check c).toList

/-- The rule catalog in the evaluation order of the jq filter's
concatenation: replicas, privileged, image tag, liveness, readiness,
resources. -/
def rulesInOrder : List (Workload → List Issue) :=
  [replicaIssues, perContainer privilegedCheck, perContainer latestTagCheck,
   perContainer livenessCheck, perContainer readinessCheck,
   perContainer resourceCheck]

/-- Ordering statement of the output, written the way the spec phrases it:
findings grouped by source workload in input order, within one workload by
rule evaluation order, and within one per-container rule by container
order. -/
def auditOrderedSpec (clock : String) (excl : List String)
    (items : List Workload) : List Finding :=
  items.flatMap fun w =>
    if isExcluded w.ns excl then []
    else (rulesInOrder.flatMap fun rule => rule w).map (stamp clock w)

/-- Resource tie-break policy written the way the spec phrases it: requests
absent yields exactly the MissingResourceRequests finding regardless of
limits; requests present and limits absent yields exactly the
MissingResourceLimits finding; both present yields none. -/
def resourceFindingsSpec (c : Container) : List Issue :=
  if c.resourceRequests = false then
    [⟨"CRITICAL", "Missing Requests", "Container: " ++ c.name,
      "Define resources.requests"⟩]
  else if c.resourceLimits = false then
    [⟨"CRITICAL", "Missing Limits", "Container: " ++ c.name,
      "Define resources.limits"⟩]
  else []

/-- Modelled from the spec: the Category Classifier of section 4.4, which
has no counterpart in the audit script (findings there carry only a level).
Fixed total mapping from issue type to Stability, Security or FinOps;
unrecognized issue types fail closed to Stability. -/
def classify (issueType : String) : String :=
  if issueType == "Privileged Container" then "Security"
  else if issueType == "Missing Requests" || issueType == "Missing Limits" then
    "FinOps"
  else "Stability"

/-- Modelled from the spec: the JSON projection of section 4.6 (an array of
finding objects), with the field names of the data model in section 3 as
consumed by the dashboard's AuditItem interface; the serving backend is not
part of the sources. Issue type and detail are joined as in the CSV row. -/
def jsonProjection (fs : List Finding) : List (List (String × String)) :=
  fs.map fun f =>
    [("Timestamp", f.timestamp), ("Namespace", f.ns), ("Type", f.kind),
     ("Name", f.name), ("Issue_Level", f.level),
     ("Issue_Type", f.issue ++ " - " ++ f.detail),
     ("Recommendation", f.recommendation)]

/-- Number of issues in a list carrying a given issue-type string. -/
def countIssue (s : String) (l : List Issue) : Nat :=
  (l.filter fun i => i.issue == s).length

/-- A field of the CSV row contains no embedded comma. -/
def noCommaStr (s : String) : Prop :=
  ¬ ',' ∈ s.data

instance decNoCommaStr (s : String) : Decidable (noCommaStr s) :=
  inferInstanceAs (Decidable (¬ ',' ∈ s.data))

/-- A raw `.items[]` element as the jq filter reads it: each access path may
come back null. `containers` is the whole `spec.template.spec.containers`
path: it is `none` when any step of that path is missing. -/
structure RawItem where
  kind : Option String
  ns : Option String
  name : Option String
  replicas : Option Int
  containers : Option (List Container)
deriving DecidableEq

/-- `is_excluded` on a possibly-null namespace: jq `index(null)` on a string
array finds nothing, so a null namespace is never excluded. -/
def rawExcluded (ns : Option String) (excl : List String) : Bool :=
  match ns with
  | some s => excl.contains s
  | none => false

/-- The workload a raw item denotes once its container list resolved: null
kind, namespace or name behave exactly like the empty string in every use
the filter makes of them (an `==` comparison against a non-empty literal,
and `@tsv`, which prints null as the empty string). -/
def rawWorkload (item : RawItem) (cs : List Container) : Workload :=
  ⟨item.kind.getD "", item.ns.getD "", item.name.getD "", item.replicas, cs⟩

/-- The jq pipeline over raw items. When the containers path of a
non-excluded item is null, `.spec.template.spec.containers[]` raises
`Cannot iterate over null`, which terminates the jq process: rows already
emitted for earlier items remain, and no later item is processed. The
Bool is `false` when the run aborted this way. -/
def rawAudit (clock : String) (excl : List String) :
    List RawItem → List Finding × Bool
  | [] => ([], true)
  | item :: rest =>
    if rawExcluded item.ns excl then rawAudit clock excl rest
    else
      match item.containers with
      | none => ([], false)
      | some cs =>
        let w := rawWorkload item cs
        let out := rawAudit clock excl rest
        ((workloadIssues w).map (stamp clock w) ++ out.1, out.2)

/-- The container of the end-to-end example: `app` with image `app:latest`,
no probes, no resources. -/
def webContainer : Container :=
  ⟨"app", "app:latest", false, false, false, false, false⟩

/-- The workload of the end-to-end example: Deployment `web` in namespace
`prod`, replicas absent. -/
def webWorkload : Workload :=
  ⟨"Deployment", "prod", "web", none, [webContainer]⟩

/-- A healthy single-container Deployment whose only varying field is the
image, used to probe the image-tag rule. -/
def demoWorkload (image : String) : Workload :=
  ⟨"Deployment", "default", "demo", some 2,
   [⟨"c1", image, false, true, true, true, true⟩]⟩

/-- A container whose name carries an embedded comma; it is privileged and
otherwise healthy, so it produces exactly one finding. -/
def commaContainer : Container :=
  ⟨"a,b", "img:1.0", true, true, true, true, true⟩

/-- A workload holding `commaContainer`. -/
def commaWorkload : Workload :=
  ⟨"Deployment", "prod", "web", some 3, [commaContainer]⟩

/-- A raw item whose kind and name cannot be determined and whose
containers path is missing. -/
def malformedItem : RawItem :=
  ⟨none, some "prod", none, none, none⟩

/-- The end-to-end example workload as a well-formed raw item. -/
def webRawItem : RawItem :=
  ⟨some "Deployment", some "prod", some "web", none, some [webContainer]⟩

theorem filter_filterMap_eq_nil {α : Type} (f : α → Option Issue)
    (p : Issue → Bool) (l : List α) (h : ∀ a i, f a = some i → p i = false) :
    (l.filterMap f).filter p = [] := by
  induction l with
  | nil => rfl
  | cons a l ih =>
    cases hfa : f a with
    | none => simpa [List.filterMap_cons, hfa] using ih
    | some i => simp [List.filterMap_cons, hfa, h a i hfa, ih]

theorem privilegedCheck_issue (c : Container) (i : Issue)
    (h : privilegedCheck c = some i) : i.issue = "Privileged Container" := by
  unfold privilegedCheck at h
  split at h
  · cases h; rfl
  · cases h

theorem latestTagCheck_issue (c : Container) (i : Issue)
    (h : latestTagCheck c = some i) : i.issue = "Using Latest Tag" := by
  unfold latestTagCheck at h
  split at h
  · cases h; rfl
  · cases h

theorem livenessCheck_issue (c : Container) (i : Issue)
    (h : livenessCheck c = some i) : i.issue = "Missing LivenessProbe" := by
  unfold livenessCheck at h
  split at h
  · cases h; rfl
  · cases h

theorem readinessCheck_issue (c : Container) (i : Issue)
    (h : readinessCheck c = some i) : i.issue = "Missing ReadinessProbe" := by
  unfold readinessCheck at h
  split at h
  · cases h; rfl
  · cases h

theorem resourceCheck_issue (c : Container) (i : Issue)
    (h : resourceCheck c = some i) :
    i.issue = "Missing Requests" ∨ i.issue = "Missing Limits" := by
  unfold resourceCheck at h
  split at h
  · cases h; exact Or.inl rfl
  · split at h
    · cases h; exact Or.inr rfl
    · cases h

/-- Claim C1 (counterexample): the end-to-end example input — one
Deployment `web` in `prod`, replicas absent, one container `app` with
image `app:latest`, no probes, no resources — does not produce 6
findings: the run yields 5. -/
theorem webAudit_not_six_findings :
    ¬ (audit "2024-01-01T00:00:00Z" [] [webWorkload]).length = 6 := by
  decide

/-- Claim C1 (amended): the end-to-end example input with an empty
exclusion set produces exactly 5 findings, in order SingleReplica
(WARN/Stability), LatestTag(WARN/Stability), MissingLivenessProbe
(HIGH/Stability), MissingReadinessProbe(HIGH/Stability) and
MissingResourceRequests(CRITICAL/FinOps); with exclusion set
containing exactly `prod` it produces no findings. -/
theorem webAudit_five_findings (clock : String) :
    (audit clock [] [webWorkload]).length = 5
    ∧ (audit clock [] [webWorkload]).map
          (fun f => (f.issue, f.level, classify f.issue))
        = [("Single Replica", "WARN", "Stability"),
           ("Using Latest Tag", "WARN", "Stability"),
           ("Missing LivenessProbe", "HIGH", "Stability"),
           ("Missing ReadinessProbe", "HIGH", "Stability"),
           ("Missing Requests", "CRITICAL", "FinOps")]
    ∧ audit clock (splitExclusions "prod") [webWorkload] = [] :=
  ⟨rfl, rfl, rfl⟩

theorem filter_check_eq_nil (check : Container → Option Issue) (nm : String)
    (hname : ∀ c i, check c = some i → i.issue = nm) (p : Issue → Bool)
    (hp : ∀ i : Issue, i.issue = nm → p i = false) (l : List Container) :
    (l.filterMap check).filter p = [] :=
  filter_filterMap_eq_nil check p l (fun a i h => hp i (hname a i h))

theorem filter_resource_eq_nil (p : Issue → Bool)
    (hp : ∀ i : Issue, i.issue = "Missing Requests" ∨ i.issue = "Missing Limits" →
      p i = false) (l : List Container) :
    (l.filterMap resourceCheck).filter p = [] :=
  filter_filterMap_eq_nil resourceCheck p l
    (fun a i h => hp i (resourceCheck_issue a i h))

theorem replicaIssues_filter_none (w : Workload) (p : Issue → Bool)
    (hp : p ⟨"WARN", "Single Replica", "replicas=1",
      "Increase replicas > 1 for HA"⟩ = false) :
    (replicaIssues w).filter p = [] := by
  unfold replicaIssues
  split
  · simp [hp]
  · rfl

theorem replicaIssues_filter_self (w : Workload) :
    (replicaIssues w).filter (fun i => i.issue == "Single Replica")
      = replicaIssues w := by
  unfold replicaIssues
  split
  · rfl
  · rfl

theorem workloadIssues_filter_single (w : Workload) :
    (workloadIssues w).filter (fun i => i.issue == "Single Replica")
      = replicaIssues w := by
  unfold workloadIssues
  rw [List.filter_append, List.filter_append, List.filter_append,
      List.filter_append, List.filter_append,
      filter_check_eq_nil privilegedCheck "Privileged Container"
        privilegedCheck_issue (fun i => i.issue == "Single Replica")
        (fun i hi => by simp only [hi]; decide) w.containers,
      filter_check_eq_nil latestTagCheck "Using Latest Tag"
        latestTagCheck_issue (fun i => i.issue == "Single Replica")
        (fun i hi => by simp only [hi]; decide) w.containers,
      filter_check_eq_nil livenessCheck "Missing LivenessProbe"
        livenessCheck_issue (fun i => i.issue == "Single Replica")
        (fun i hi => by simp only [hi]; decide) w.containers,
      filter_check_eq_nil readinessCheck "Missing ReadinessProbe"
        readinessCheck_issue (fun i => i.issue == "Single Replica")
        (fun i hi => by simp only [hi]; decide) w.containers,
      filter_resource_eq_nil (fun i => i.issue == "Single Replica")
        (fun i hi => by rcases hi with hi | hi <;> simp only [hi] <;> decide)
        w.containers,
      replicaIssues_filter_self]
  simp

/-- Claim C5: a Deployment with replicas absent or equal to 1 yields
exactly one SingleReplica finding, at level WARN; a Deployment with any
other replica count yields none, and a StatefulSet or DaemonSet yields
none whatever its replica count. -/
theorem singleReplica_rule :
    (∀ w : Workload, w.kind = "Deployment" →
      w.replicas = none ∨ w.replicas = some 1 →
      (workloadIssues w).filter (fun i => i.issue == "Single Replica")
        = [⟨"WARN", "Single Replica", "replicas=1",
            "Increase replicas > 1 for HA"⟩])
    ∧ (∀ (w : Workload) (r : Int), w.kind = "Deployment" →
        w.replicas = some r → r ≠ 1 →
        countIssue "Single Replica" (workloadIssues w) = 0)
    ∧ (∀ w : Workload, w.kind = "StatefulSet" ∨ w.kind = "DaemonSet" →
        countIssue "Single Replica" (workloadIssues w) = 0) := by
  refine ⟨?_, ?_, ?_⟩
  · intro w hk hr
    rw [workloadIssues_filter_single]
    unfold replicaIssues
    rcases hr with hr | hr <;> simp [hk, hr]
  · intro w r hk hr hne
    unfold countIssue
    rw [workloadIssues_filter_single]
    unfold replicaIssues
    simp [hk, hr, hne]
  · intro w hk
    unfold countIssue
    rw [workloadIssues_filter_single]
    unfold replicaIssues
    rcases hk with hk | hk <;> simp [hk]

/-- Witness for C5 at the end-to-end example Deployment (replicas absent). -/
theorem singleReplica_rule_witness :
    (workloadIssues webWorkload).filter (fun i => i.issue == "Single Replica")
      = [⟨"WARN", "Single Replica", "replicas=1",
          "Increase replicas > 1 for HA"⟩] :=
  singleReplica_rule.1 webWorkload rfl (Or.inl rfl)

theorem latestTag_filterMap_as_map (l : List Container) :
    (l.filterMap latestTagCheck).filter (fun i => i.issue == "Using Latest Tag")
      = (l.filter fun c =>
          strEndsWith c.image ":latest" || !strContainsChar c.image ':').map
          (fun c => ⟨"WARN", "Using Latest Tag",
            "Container: " ++ c.name ++ " (" ++ c.image ++ ")",
            "Use specific version tag"⟩) := by
  induction l with
  | nil => rfl
  | cons c l ih =>
    by_cases hc :
        (strEndsWith c.image ":latest" || !strContainsChar c.image ':') = true
    · simp [latestTagCheck, hc, List.filterMap_cons, List.filter_cons, ih]
    · simp [latestTagCheck, hc, List.filterMap_cons, List.filter_cons, ih]

/-- Claim C6: a container whose image ends with `:latest` or carries no
colon (the code's notion of "no explicit tag") yields exactly one
LatestTag finding at level WARN, in container order, and no container
outside that condition yields one; image `nginx:1.25` produces none,
`nginx` produces one, `nginx:latest` produces one. -/
theorem latestTag_rule :
    (∀ w : Workload,
      (workloadIssues w).filter (fun i => i.issue == "Using Latest Tag")
        = (w.containers.filter fun c =>
            strEndsWith c.image ":latest" || !strContainsChar c.image ':').map
            (fun c => ⟨"WARN", "Using Latest Tag",
              "Container: " ++ c.name ++ " (" ++ c.image ++ ")",
              "Use specific version tag"⟩))
    ∧ countIssue "Using Latest Tag" (workloadIssues (demoWorkload "nginx:1.25")) = 0
    ∧ countIssue "Using Latest Tag" (workloadIssues (demoWorkload "nginx")) = 1
    ∧ countIssue "Using Latest Tag" (workloadIssues (demoWorkload "nginx:latest")) = 1 := by
  refine ⟨?_, by decide, by decide, by decide⟩
  intro w
  unfold workloadIssues
  rw [List.filter_append, List.filter_append, List.filter_append,
      List.filter_append, List.filter_append,
      replicaIssues_filter_none w (fun i => i.issue == "Using Latest Tag")
        (by decide),
      filter_check_eq_nil privilegedCheck "Privileged Container"
        privilegedCheck_issue (fun i => i.issue == "Using Latest Tag")
        (fun i hi => by simp only [hi]; decide) w.containers,
      filter_check_eq_nil livenessCheck "Missing LivenessProbe"
        livenessCheck_issue (fun i => i.issue == "Using Latest Tag")
        (fun i hi => by simp only [hi]; decide) w.containers,
      filter_check_eq_nil readinessCheck "Missing ReadinessProbe"
        readinessCheck_issue (fun i => i.issue == "Using Latest Tag")
        (fun i hi => by simp only [hi]; decide) w.containers,
      filter_resource_eq_nil (fun i => i.issue == "Using Latest Tag")
        (fun i hi => by rcases hi with hi | hi <;> simp only [hi] <;> decide)
        w.containers,
      latestTag_filterMap_as_map]
  simp

/-- Claim C10: the image-tag check treats any colon in the image string as
an explicit tag — a container whose image contains a colon and does not
end with `:latest` yields no LatestTag finding, in particular the
untagged image `registry.local:5000/app` whose registry host carries a
port. -/
theorem latestTag_colon_no_finding :
    (∀ c : Container, strContainsChar c.image ':' = true →
      strEndsWith c.image ":latest" = false → latestTagCheck c = none)
    ∧ countIssue "Using Latest Tag"
        (workloadIssues (demoWorkload "registry.local:5000/app")) = 0 := by
  refine ⟨?_, by decide⟩
  intro c h1 h2
  unfold latestTagCheck
  simp [h1, h2]

/-- Witness for C10 at the container with image `registry.local:5000/app`. -/
theorem latestTag_colon_no_finding_witness :
    latestTagCheck ⟨"app", "registry.local:5000/app", false, true, true,
      true, true⟩ = none :=
  latestTag_colon_no_finding.1 _ (by decide) (by decide)

theorem resource_filterMap_as_spec (l : List Container) :
    (l.filterMap resourceCheck).filter
        (fun i => i.issue == "Missing Requests" || i.issue == "Missing Limits")
      = l.flatMap resourceFindingsSpec := by
  induction l with
  | nil => rfl
  | cons c l ih =>
    cases hr : c.resourceRequests <;> cases hl : c.resourceLimits <;>
      simp [resourceCheck, resourceFindingsSpec, hr, hl, List.filterMap_cons,
        List.flatMap_cons, List.filter_cons, ih]

/-- Claim C3: per container the resource findings are mutually exclusive —
requests absent yields exactly one MissingResourceRequests (CRITICAL)
finding regardless of limits, requests present and limits absent yields
exactly one MissingResourceLimits (CRITICAL) finding, and both present
yields no resource finding. -/
theorem resource_rules_exclusive :
    (∀ w : Workload,
      (workloadIssues w).filter
          (fun i => i.issue == "Missing Requests" || i.issue == "Missing Limits")
        = w.containers.flatMap resourceFindingsSpec)
    ∧ (∀ c : Container, c.resourceRequests = false →
        resourceFindingsSpec c = [⟨"CRITICAL", "Missing Requests",
          "Container: " ++ c.name, "Define resources.requests"⟩])
    ∧ (∀ c : Container, c.resourceRequests = true → c.resourceLimits = false →
        resourceFindingsSpec c = [⟨"CRITICAL", "Missing Limits",
          "Container: " ++ c.name, "Define resources.limits"⟩])
    ∧ (∀ c : Container, c.resourceRequests = true → c.resourceLimits = true →
        resourceFindingsSpec c = []) := by
  refine ⟨?_, ?_, ?_, ?_⟩
  · intro w
    unfold workloadIssues
    rw [List.filter_append, List.filter_append, List.filter_append,
        List.filter_append, List.filter_append,
        replicaIssues_filter_none w
          (fun i => i.issue == "Missing Requests" || i.issue == "Missing Limits")
          (by decide),
        filter_check_eq_nil privilegedCheck "Privileged Container"
          privilegedCheck_issue
          (fun i => i.issue == "Missing Requests" || i.issue == "Missing Limits")
          (fun i hi => by simp only [hi]; decide) w.containers,
        filter_check_eq_nil latestTagCheck "Using Latest Tag"
          latestTagCheck_issue
          (fun i => i.issue == "Missing Requests" || i.issue == "Missing Limits")
          (fun i hi => by simp only [hi]; decide) w.containers,
        filter_check_eq_nil livenessCheck "Missing LivenessProbe"
          livenessCheck_issue
          (fun i => i.issue == "Missing Requests" || i.issue == "Missing Limits")
          (fun i hi => by simp only [hi]; decide) w.containers,
        filter_check_eq_nil readinessCheck "Missing ReadinessProbe"
          readinessCheck_issue
          (fun i => i.issue == "Missing Requests" || i.issue == "Missing Limits")
          (fun i hi => by simp only [hi]; decide) w.containers,
        resource_filterMap_as_spec]
    simp
  · intro c h
    unfold resourceFindingsSpec
    simp [h]
  · intro c h1 h2
    unfold resourceFindingsSpec
    simp [h1, h2]
  · intro c h1 h2
    unfold resourceFindingsSpec
    simp [h1, h2]

/-- Witness for C3 at a container with neither requests nor limits: it
yields exactly the MissingResourceRequests finding. -/
theorem resource_rules_exclusive_witness :
    resourceFindingsSpec ⟨"c1", "img:1.0", false, true, true, false, false⟩
      = [⟨"CRITICAL", "Missing Requests", "Container: c1",
          "Define resources.requests"⟩] :=
  resource_rules_exclusive.2.1 ⟨"c1", "img:1.0", false, true, true, false, false⟩
    rfl

theorem filterMap_eq_flatMap_toList {α β : Type} (f : α → Option β)
    (l : List α) : l.filterMap f = l.flatMap fun a => (f a).toList := by
  induction l with
  | nil => rfl
  | cons a l ih =>
    cases hfa : f a <;>
      simp [List.filterMap_cons, List.flatMap_cons, hfa, ih]

theorem workloadIssues_eq_rulesInOrder (w : Workload) :
    workloadIssues w = rulesInOrder.flatMap fun rule => rule w := by
  simp [rulesInOrder, workloadIssues, perContainer,
    filterMap_eq_flatMap_toList, List.flatMap_cons, List.flatMap_nil]

/-- Claim C4: the output findings are produced by a pure function of the
input and are ordered as the spec states — grouped by source workload in
input order (`audit` distributes over concatenation of the input), and
within one workload by rule evaluation order then container order
(`audit` coincides with `auditOrderedSpec`, whose shape is exactly that
nesting). -/
theorem audit_ordered :
    (∀ (clock : String) (excl : List String) (items : List Workload),
      audit clock excl items = auditOrderedSpec clock excl items)
    ∧ (∀ (clock : String) (excl : List String) (xs ys : List Workload),
        audit clock excl (xs ++ ys)
          = audit clock excl xs ++ audit clock excl ys) := by
  constructor
  · intro clock excl items
    unfold audit auditOrderedSpec
    congr 1
    funext w
    rw [workloadIssues_eq_rulesInOrder]
  · intro clock excl xs ys
    unfold audit
    exact List.flatMap_append xs ys _

/-- Claim C7: the namespace filter drops exactly the workloads whose
namespace is an exact, case-sensitive member of the exclusion set,
independently of position (it distributes over concatenation), preserves
the relative order of survivors (sublist), and an empty exclusion set
excludes nothing; `audit` is the filter followed by per-workload
evaluation. -/
theorem namespace_filter_rule :
    (∀ (clock : String) (excl : List String) (items : List Workload),
      audit clock excl items
        = (nsFilter excl items).flatMap fun w =>
            (workloadIssues w).map (stamp clock w))
    ∧ (∀ (excl : List String) (w : Workload) (items : List Workload),
        w ∈ nsFilter excl items ↔ w ∈ items ∧ isExcluded w.ns excl = false)
    ∧ (∀ (excl : List String) (xs ys : List Workload),
        nsFilter excl (xs ++ ys) = nsFilter excl xs ++ nsFilter excl ys)
    ∧ (∀ (excl : List String) (items : List Workload),
        (nsFilter excl items).Sublist items)
    ∧ (∀ items : List Workload, nsFilter [] items = items)
    ∧ (∀ (ns : String) (excl : List String),
        isExcluded ns excl = true ↔ ns ∈ excl)
    ∧ isExcluded "Prod" ["prod"] = false := by
  refine ⟨?_, ?_, ?_, ?_, ?_, ?_, by decide⟩
  · intro clock excl items
    induction items with
    | nil => rfl
    | cons w items ih =>
      simp only [audit] at ih ⊢
      by_cases hw : isExcluded w.ns excl = true <;>
        simp [List.flatMap_cons, nsFilter, List.filter_cons, hw, ih]
  · intro excl w items
    simp [nsFilter, List.mem_filter, Bool.not_eq_true']
  · intro excl xs ys
    simp [nsFilter, List.filter_append]
  · intro excl items
    exact List.filter_sublist items
  · intro items
    simp [nsFilter, List.filter_eq_self, isExcluded]
  · intro ns excl
    simp [isExcluded, List.contains, List.elem_iff]

/-- Claim C8: the whole pipeline is a pure function of workloads,
exclusion set and the injected clock — evaluating the CSV and JSON
projections twice on identical input gives identical documents — and
every finding of a run is stamped with the one injected clock value. -/
theorem run_determinism :
    (∀ (clock : String) (excl : List String) (items : List Workload),
      csvLines (audit clock excl items) = csvLines (audit clock excl items))
    ∧ (∀ (clock : String) (excl : List String) (items : List Workload),
      jsonProjection (audit clock excl items)
        = jsonProjection (audit clock excl items))
    ∧ (∀ (clock : String) (excl : List String) (items : List Workload),
      ((audit clock excl items).all fun f => f.timestamp == clock) = true) := by
  refine ⟨fun _ _ _ => rfl, fun _ _ _ => rfl, ?_⟩
  intro clock excl items
  simp only [List.all_eq_true]
  intro f hf
  simp only [audit, List.mem_flatMap] at hf
  obtain ⟨w, hw, hfw⟩ := hf
  split at hfw
  · simp at hfw
  · simp only [List.mem_map] at hfw
    obtain ⟨i, hi, rfl⟩ := hfw
    simp [stamp]

theorem splitCommas_no_comma (a : List Char) (h : ¬ ',' ∈ a) :
    splitCommas a = [a] := by
  induction a with
  | nil => rfl
  | cons c a ih =>
    have hc : ¬ c = ',' := fun e => h (by simp [e])
    have ha : ¬ ',' ∈ a := fun hm => h (List.mem_cons_of_mem _ hm)
    simp [splitCommas, hc, ih ha]

theorem splitCommas_append (a b : List Char) (h : ¬ ',' ∈ a) :
    splitCommas (a ++ ',' :: b) = a :: splitCommas b := by
  induction a with
  | nil => simp [splitCommas]
  | cons c a ih =>
    have hc : ¬ c = ',' := fun e => h (by simp [e])
    have ha : ¬ ',' ∈ a := fun hm => h (List.mem_cons_of_mem _ hm)
    simp [splitCommas, hc, ih ha]

theorem comma_data : (",").data = [','] := rfl

theorem sepDash_data : (" - ").data = [' ', '-', ' '] := rfl

/-- Claim C2 (counterexample): the finding produced for a privileged
container named `a,b` has detail `Container: a,b`, which carries an
embedded comma; its CSV row contains no quote character at all and
parses into 8 comma-separated columns, not 7. -/
theorem csvRow_not_quoted :
    (audit "T" [] [commaWorkload]).map (fun f => f.detail) = ["Container: a,b"]
    ∧ ',' ∈ "Container: a,b".data
    ∧ (splitCommas
        ((csvLines (audit "T" [] [commaWorkload])).getD 1 "").data).length = 8
    ∧ ¬ '"' ∈ ((csvLines (audit "T" [] [commaWorkload])).getD 1 "").data := by
  decide

/-- Claim C2 (amended): the CSV projection of any run begins with the
header row `Timestamp,Namespace,Type,Name,Issue_Level,Issue_Type,
Recommendation` in exactly that column order; rows are written without
quoting, so a row parses into exactly the seven intended columns when no
field contains an embedded comma (and into extra columns otherwise, as
the counterexample shows). -/
theorem csv_header_and_columns :
    (∀ fs : List Finding, (csvLines fs).head? = some
      "Timestamp,Namespace,Type,Name,Issue_Level,Issue_Type,Recommendation")
    ∧ (∀ f : Finding, noCommaStr f.timestamp → noCommaStr f.ns →
        noCommaStr f.kind → noCommaStr f.name → noCommaStr f.level →
        noCommaStr f.issue → noCommaStr f.detail →
        noCommaStr f.recommendation →
        splitCommas (csvRow f).data
          = [f.timestamp.data, f.ns.data, f.kind.data, f.name.data,
             f.level.data, (f.issue ++ " - " ++ f.detail).data,
             f.recommendation.data]) := by
  refine ⟨fun fs => rfl, ?_⟩
  intro f h1 h2 h3 h4 h5 h6 h7 h8
  have hmid : ¬ ',' ∈ (f.issue ++ " - " ++ f.detail).data := by
    rw [String.data_append, String.data_append]
    intro hmem
    rcases List.mem_append.mp hmem with hmem1 | hdet
    · rcases List.mem_append.mp hmem1 with hiss | hsep
      · exact h6 hiss
      · rw [sepDash_data] at hsep
        simp at hsep
    · exact h7 hdet
  have hrow : (csvRow f).data
      = f.timestamp.data ++ ',' :: (f.ns.data ++ ',' :: (f.kind.data
        ++ ',' :: (f.name.data ++ ',' :: (f.level.data
        ++ ',' :: ((f.issue ++ " - " ++ f.detail).data
        ++ ',' :: f.recommendation.data))))) := by
    simp [csvRow, String.data_append, comma_data, sepDash_data,
      List.append_assoc]
  rw [hrow, splitCommas_append _ _ h1, splitCommas_append _ _ h2,
      splitCommas_append _ _ h3, splitCommas_append _ _ h4,
      splitCommas_append _ _ h5, splitCommas_append _ _ hmid,
      splitCommas_no_comma _ h8]

/-- Witness for the amended C2 at a concrete comma-free finding. -/
theorem csv_header_and_columns_witness :
    splitCommas (csvRow ⟨"T", "prod", "Deployment", "web", "HIGH",
        "Privileged Container", "Avoid privileged mode",
        "Container: c1"⟩).data
      = [("T").data, ("prod").data, ("Deployment").data, ("web").data,
         ("HIGH").data, ("Privileged Container - Container: c1").data,
         ("Avoid privileged mode").data] := by
  have h := csv_header_and_columns.2
    ⟨"T", "prod", "Deployment", "web", "HIGH", "Privileged Container",
     "Avoid privileged mode", "Container: c1"⟩
    (by decide) (by decide) (by decide) (by decide) (by decide) (by decide)
    (by decide) (by decide)
  exact h

/-- Claim C9 (counterexample): a raw item whose kind and name cannot be
determined and whose containers path is missing is not skipped with the
run continuing — it aborts the run: placed before the well-formed `web`
workload, the run emits no findings at all (and flags the abort), while
the same input without the malformed item yields 5 findings. -/
theorem malformed_aborts_run :
    (rawAudit "T" [] [malformedItem, webRawItem]).1 = []
    ∧ (rawAudit "T" [] [malformedItem, webRawItem]).2 = false
    ∧ (rawAudit "T" [] [webRawItem]).1.length = 5 := by
  decide

/-- Claim C9 (amended): when a non-excluded raw item's containers path
cannot be determined, the run aborts at that item: findings already
emitted for earlier items are kept, and that item and every later item
produce none; no warning-and-continue behaviour exists. -/
theorem rawAudit_aborts_at_malformed (clock : String) (excl : List String)
    (pre : List RawItem) (mal : RawItem) (post : List RawItem)
    (hpre : (rawAudit clock excl pre).2 = true)
    (hex : rawExcluded mal.ns excl = false)
    (hc : mal.containers = none) :
    rawAudit clock excl (pre ++ mal :: post)
      = ((rawAudit clock excl pre).1, false) := by
  induction pre with
  | nil =>
    simp [rawAudit, hex, hc]
  | cons item pre ih =>
    by_cases hitem : rawExcluded item.ns excl = true
    · have h2 : (rawAudit clock excl pre).2 = true := by
        simpa [rawAudit, hitem] using hpre
      simp [rawAudit, hitem, ih h2]
    · cases hcs : item.containers with
      | none =>
        exfalso
        have hfalse : (rawAudit clock excl (item :: pre)).2 = false := by
          simp [rawAudit, hitem, hcs]
        rw [hfalse] at hpre
        exact Bool.false_ne_true hpre
      | some cs =>
        have h2 : (rawAudit clock excl pre).2 = true := by
          simpa [rawAudit, hitem, hcs] using hpre
        simp [rawAudit, hitem, hcs, ih h2]

/-- Witness for the amended C9 at the concrete malformed raw item. -/
theorem rawAudit_aborts_at_malformed_witness :
    rawAudit "T" [] [malformedItem, webRawItem] = ([], false) :=
  rawAudit_aborts_at_malformed "T" [] [] malformedItem [webRawItem] rfl rfl rfl
